import Mathlib

/-!
Verification of the UK-gov-APIs repository core: the disk-cache key
fingerprint, the TTL cache read, the request throttle, the read-through
fetch pipelines of `uk_police_api.py` and `uk_bank_holidays.py`, and the
analytics over fetched holiday records.  Every definition is a shallow
embedding of the corresponding Python function; times are rationals
(Python floats), Python ints are `Int`, and code paths where Python can
raise an exception return `Except`.
-/

/-- A Python value as passed in `**kwargs` and JSON bodies: the primitive
scalars `str`, `int`, `float`, `bool`, `None`, plus lists and dicts
(non-primitive). -/
inductive PyVal where
  | pstr (s : String)
  | pint (n : Int)
  | pfloat (q : ℚ)
  | pbool (b : Bool)
  | pnone
  | plist (xs : List PyVal)
  | pdict (kvs : List (String × PyVal))

/-- Python `isinstance(v, (str, int, float, bool, type(None)))` from
`_get_cache_key` in `uk_police_api.py`. -/
def PyVal.isPrimitive : PyVal → Bool
  | .pstr _ => true
  | .pint _ => true
  | .pfloat _ => true
  | .pbool _ => true
  | .pnone => true
  | .plist _ => false
  | .pdict _ => false

/-- Rendering of a primitive scalar by `json.dumps` (string escaping is
immaterial to the properties proved here; non-primitive values are
filtered out before serialization ever sees them). -/
def jsonOfPrim : PyVal → String
  | .pstr s => "\"" ++ s ++ "\""
  | .pint n => toString n
  | .pfloat q => toString q
  | .pbool b => if b then "true" else "false"
  | .pnone => "null"
  | .plist _ => ""
  | .pdict _ => ""

/-- Python dict lookup on an association list (first binding wins; in a
dict built from `**kwargs` keys are unique). -/
def lookupKey (k : String) : List (String × PyVal) → Option PyVal
  | [] => Option.none
  | (k2, v) :: rest => if k = k2 then some v else lookupKey k rest

/-- The call `json.dumps(serializable_kwargs, sort_keys=True)`: keys
sorted lexically, each followed by its serialized value. -/
def dumpsSorted (kvs : List (String × PyVal)) : String :=
  "\x7b" ++ String.intercalate ", "
    ((List.insertionSort (· ≤ ·) (kvs.map Prod.fst)).map fun k => "\"" ++ k ++ "\": " ++
      (match lookupKey k kvs with
       | some v => jsonOfPrim v
       | Option.none => "")) ++ "\x7d"

/-- The canonical string `f"{operation}_{json.dumps(serializable_kwargs,
sort_keys=True)}"` built by `_get_cache_key` in `uk_police_api.py`:
non-primitive parameter values are discarded, the rest serialized with
keys sorted. -/
def policeCacheStr (operation : String) (kwargs : List (String × PyVal)) : String :=
  operation ++ "_" ++ dumpsSorted (kwargs.filter fun kv => kv.2.isPrimitive)

/-- Function `_get_cache_key` of `uk_police_api.py`: `hashlib.md5`
applied to the canonical string.  The hash is modelled as an arbitrary
function of that string, since md5 of equal inputs is equal. -/
def policeGetCacheKey (md5 : String → String) (operation : String)
    (kwargs : List (String × PyVal)) : String :=
  md5 (policeCacheStr operation kwargs)

/-- Function `_get_cache_key` of `uk_bank_holidays.py`: the hashed string
is `f"bank_holidays_{operation}"` — a function of the operation name
alone, with no parameter input at all. -/
def bankCacheStr (operation : String) : String :=
  "bank_holidays_" ++ operation

/-- The result envelope built by the fetch layer (a Python dict whose
keys vary by branch: absent keys are `Option.none`). -/
structure Result where
  status : String
  data : Option PyVal := Option.none
  count : Option Nat := Option.none
  message : Option String := Option.none
  details : Option String := Option.none
  fetchedAt : Option ℚ := Option.none
  source : Option String := Option.none

/-- What the one outbound `requests.get` can come back with: an HTTP
response (status code, parsed JSON body, raw text), a timeout, another
`RequestException`, or any other exception raised inside the `try`. -/
inductive HttpOutcome where
  | response (statusCode : Nat) (body : PyVal) (text : String)
  | timeout
  | requestException (msg : String)
  | otherException (msg : String)

/-- Python `len(data) if isinstance(data, list) else 1`. -/
def pyCount : PyVal → Nat
  | .plist xs => xs.length
  | _ => 1

/-- Response classification of `_make_request` in `uk_police_api.py`:
200 success, 404 success with an empty list and count 0, 503 busy error,
any other status a generic error with truncated body, and the three
`except` branches. -/
def classifyPolice : HttpOutcome → Result
  | .response 200 body _ =>
      { status := "success", data := some body, count := some (pyCount body) }
  | .response 404 _ _ =>
      { status := "success", data := some (.plist []), count := some 0,
        message := some "No data found for the specified parameters" }
  | .response 503 _ _ =>
      { status := "error",
        message := some "Service temporarily unavailable or request too large (>10,000 results)" }
  | .response code _ text =>
      { status := "error", message := some ("API error: HTTP " ++ toString code),
        details := if text = "" then Option.none else some (text.take 200) }
  | .timeout =>
      { status := "error", message := some "Request timed out after 30 seconds" }
  | .requestException m =>
      { status := "error", message := some ("Request failed: " ++ m) }
  | .otherException m =>
      { status := "error", message := some ("Unexpected error: " ++ m) }

/-- One on-disk cache file: its modification time and what `json.load`
yields on it — `Option.none` when the file is unreadable or not valid
JSON (`json.JSONDecodeError`, `IOError`). -/
structure CacheFile where
  mtime : ℚ
  parsed : Option Result

/-- The mutable state the fetch layer touches: the current clock, the
module-global `_LAST_CALL_AT`, the cache directory (one file per key),
and a count of outbound HTTP requests issued so far. -/
structure World where
  now : ℚ
  lastCallAt : ℚ
  cache : String → Option CacheFile
  httpCalls : Nat

/-- Function `_get_from_cache`: if the file exists and its age
`time.time() - getmtime` is strictly below `max_age`, return what it
parses to; a parse or read failure is swallowed (`except ... pass`) and,
like a missing or expired file, yields `None`. -/
def readCache (w : World) (cacheKey : String) (maxAge : ℚ) : Option Result :=
  match w.cache cacheKey with
  | Option.none => Option.none
  | some f => if w.now - f.mtime < maxAge then f.parsed else Option.none

/-- Function `_save_to_cache` (the successful-write case; an `IOError` is
logged and swallowed): the file for this key is overwritten wholesale. -/
def writeCache (w : World) (cacheKey : String) (r : Result) : World :=
  { w with cache := fun k => if k = cacheKey then some ⟨w.now, some r⟩ else w.cache k }

/-- Function `_rate_limit` (identical in both modules): compute
`min_interval = 1.0 / calls_per_second`; if `_LAST_CALL_AT + min_interval
- time.time()` is positive, sleep that long; the new `_LAST_CALL_AT` is
the time when the call returns. -/
def rateLimitCall (callsPerSecond lastCallAt now : ℚ) : ℚ :=
  if 0 < lastCallAt + 1 / callsPerSecond - now then
    now + (lastCallAt + 1 / callsPerSecond - now)
  else now

/-- N sequential `_rate_limit` calls: `ds` lists, for each call, the
delay between the completion of the previous call and the moment this
call starts (nonnegative for sequential callers).  Returns the list of
completion times, each of which is also the `_LAST_CALL_AT` the call
records. -/
def throttleRun (callsPerSecond lastCallAt : ℚ) : List ℚ → List ℚ
  | [] => []
  | d :: ds =>
      let c := rateLimitCall callsPerSecond lastCallAt (lastCallAt + d)
      c :: throttleRun callsPerSecond c ds

/-- Function `_make_request` of `uk_police_api.py` for one prepared
request: the dependency gate, then throttle, then the outbound call
(whose outcome is the oracle `upstream`), then classification.  The
returned world counts the outbound request and carries the updated
throttle timestamp. -/
def makeRequest (requestsAvailable : Bool) (w : World) (upstream : HttpOutcome) :
    Result × World :=
  if requestsAvailable then
    let t := rateLimitCall 0.5 w.lastCallAt w.now
    (classifyPolice upstream, ⟨t, t, w.cache, w.httpCalls + 1⟩)
  else
    ({ status := "error",
       message := some "requests not available. Install with: pip install requests" }, w)

/-- The cache key `get_police_forces` uses: `_get_cache_key("forces")`
(keys are represented by their canonical pre-hash strings). -/
def policeForcesKey : String := policeCacheStr "forces" []

/-- Tool `get_police_forces`: consult the cache when enabled and return a
hit as-is; on a miss perform the request and write the result back only
when its status is success (and caching is on). -/
def getPoliceForces (requestsAvailable useCache : Bool) (cacheMaxAge : ℚ)
    (w : World) (upstream : HttpOutcome) : Result × World :=
  match (if useCache then readCache w policeForcesKey cacheMaxAge else Option.none) with
  | some cached => (cached, w)
  | Option.none =>
      let (result, w2) := makeRequest requestsAvailable w upstream
      if result.status = "success" ∧ useCache then
        (result, writeCache w2 policeForcesKey result)
      else
        (result, w2)

/-- The single cache key of the bank-holidays module:
`_get_cache_key("all_data")`. -/
def bankAllDataKey : String := bankCacheStr "all_data"

/-- Response classification inside `_fetch_bank_holidays_data`: only
HTTP 200 is a success; every other status code — 404 included — falls
into the one generic `API error` branch. -/
def classifyBank (fetchTime : ℚ) : HttpOutcome → Result
  | .response 200 body _ =>
      { status := "success", data := some body, fetchedAt := some fetchTime,
        source := some "https://www.gov.uk/bank-holidays.json" }
  | .response code _ text =>
      { status := "error", message := some ("API error: HTTP " ++ toString code),
        details := if text = "" then Option.none else some (text.take 200) }
  | .timeout =>
      { status := "error", message := some "Request timed out after 30 seconds" }
  | .requestException m =>
      { status := "error", message := some ("Request failed: " ++ m) }
  | .otherException m =>
      { status := "error", message := some ("Unexpected error: " ++ m) }

/-- Function `_fetch_bank_holidays_data`: dependency gate, cache consult
under the fixed `"all_data"` key, throttle, outbound call, classification,
and a write-back of successful results only. -/
def fetchBankHolidaysData (requestsAvailable useCache : Bool) (cacheMaxAge : ℚ)
    (w : World) (upstream : HttpOutcome) : Result × World :=
  if requestsAvailable then
    match (if useCache then readCache w bankAllDataKey cacheMaxAge else Option.none) with
    | some cached => (cached, w)
    | Option.none =>
        let t := rateLimitCall 0.5 w.lastCallAt w.now
        let w2 : World := ⟨t, t, w.cache, w.httpCalls + 1⟩
        let result := classifyBank t upstream
        if result.status = "success" ∧ useCache then
          (result, writeCache w2 bankAllDataKey result)
        else
          (result, w2)
  else
    ({ status := "error",
       message := some "requests not available. Install with: pip install requests" }, w)

/-- Function `_validate_coordinates` of `uk_police_api.py` on numeric
input: latitude in [-90, 90] and longitude in [-180, 180]. -/
def validateCoordinates (lat lng : ℚ) : Bool :=
  decide (-90 ≤ lat ∧ lat ≤ 90 ∧ -180 ≤ lng ∧ lng ≤ 180)

/-- Function `_validate_date` of `uk_police_api.py`: the regular
expression `^\d{4}-\d{2}$`. -/
def validPoliceDate (s : String) : Bool :=
  match s.data with
  | [a, b, c, d, e, f, g] =>
      a.isDigit && b.isDigit && c.isDigit && d.isDigit && (e == '-') && f.isDigit && g.isDigit
  | _ => false

/-- True when an optional date argument was given and fails
`_validate_date` (the guard `if date and not _validate_date(date)`). -/
def invalidOptDate : Option String → Bool
  | some s => !(validPoliceDate s)
  | Option.none => false

/-- The coordinate-validation message of `get_crimes_street_point`, the
only one that spells out the valid ranges. -/
def latRangeMsg : String :=
  "Invalid coordinates. Latitude must be between -90 and 90, longitude between -180 and 180"

/-- Tool `get_crimes_street_point`: coordinate validation, then date
validation, then the cached read-through request against
`crimes-street/all-crime`.  Validation failures return before the cache,
throttle or network are touched. -/
def getCrimesStreetPoint (lat lng : ℚ) (date category : Option String)
    (useCache : Bool) (cacheMaxAge : ℚ) (requestsAvailable : Bool)
    (w : World) (upstream : HttpOutcome) : Result × World :=
  if !(validateCoordinates lat lng) then
    ({ status := "error", message := some latRangeMsg }, w)
  else if invalidOptDate date then
    ({ status := "error",
       message := some "Invalid date format. Use YYYY-MM format (e.g., '2024-01')" }, w)
  else
    let params : List (String × PyVal) :=
      [("lat", .pstr (toString lat)), ("lng", .pstr (toString lng))]
      ++ (match date with | some d => [("date", .pstr d)] | Option.none => [])
      ++ (match category with | some c => [("category", .pstr c)] | Option.none => [])
    let key := policeCacheStr "crimes_street_point" params
    match (if useCache then readCache w key cacheMaxAge else Option.none) with
    | some cached => (cached, w)
    | Option.none =>
        let (result, w2) := makeRequest requestsAvailable w upstream
        if result.status = "success" ∧ useCache then (result, writeCache w2 key result)
        else (result, w2)

/-- Tool `get_stop_search_location`: same pipeline against
`stops-street`, but its coordinate-validation message is the bare
string `"Invalid coordinates"`. -/
def getStopSearchLocation (lat lng : ℚ) (date : Option String)
    (useCache : Bool) (cacheMaxAge : ℚ) (requestsAvailable : Bool)
    (w : World) (upstream : HttpOutcome) : Result × World :=
  if !(validateCoordinates lat lng) then
    ({ status := "error", message := some "Invalid coordinates" }, w)
  else if invalidOptDate date then
    ({ status := "error", message := some "Invalid date format. Use YYYY-MM format" }, w)
  else
    let params : List (String × PyVal) :=
      [("lat", .pstr (toString lat)), ("lng", .pstr (toString lng))]
      ++ (match date with | some d => [("date", .pstr d)] | Option.none => [])
    let key := policeCacheStr "stop_search_location" params
    match (if useCache then readCache w key cacheMaxAge else Option.none) with
    | some cached => (cached, w)
    | Option.none =>
        let (result, w2) := makeRequest requestsAvailable w upstream
        if result.status = "success" ∧ useCache then (result, writeCache w2 key result)
        else (result, w2)

/-- The distinct dates among one region's holiday records
(`set(h["date"] for h in region_data["holidays"])`); a record is
represented by its date string, one list entry per record. -/
def datesOf (records : List String) : Finset String := records.toFinset

/-- The set `all_dates` of `compare_regions_by_year`: the union of every
region's dates. -/
def allDates (regions : List (String × List String)) : Finset String :=
  regions.foldl (fun acc r => acc ∪ datesOf r.2) ∅

/-- The set `other_regions_dates` for the named region: the union of the
dates of every differently-named region. -/
def otherDates (regions : List (String × List String)) (region : String) : Finset String :=
  regions.foldl (fun acc r => if r.1 ≠ region then acc ∪ datesOf r.2 else acc) ∅

/-- The list `unique_holidays` of one region: its records whose date lies
in `region_dates - other_regions_dates`. -/
def uniqueHolidays (regions : List (String × List String)) (region : String)
    (records : List String) : List String :=
  records.filter fun d => d ∈ (datesOf records \ otherDates regions region)

/-- Summary field `total_unique_dates` (Python int arithmetic: `Int`). -/
def totalUniqueDates (regions : List (String × List String)) : Int :=
  (allDates regions).card

/-- The sum `sum(len(r["unique_holidays"]) for r in regions.values())`. -/
def sumUniqueCounts (regions : List (String × List String)) : Int :=
  (regions.map fun r => ((uniqueHolidays regions r.1 r.2).length : Int)).sum

/-- Summary field `common_holidays`, computed by the source as the total
minus the sum of unique counts. -/
def commonHolidays (regions : List (String × List String)) : Int :=
  totalUniqueDates regions - sumUniqueCounts regions

/-- The envelope `get_bank_holidays_by_year` hands back for one region:
its status and, on success, the formatted records (represented by their
dates) with the reported count. -/
structure ByYearResult where
  status : String
  dates : List String
  count : Int

/-- Python `max(xs, key=f)`: raises `ValueError` on an empty sequence,
otherwise returns the first element of maximal key. -/
def pyMaxBy (f : α → Int) : List α → Except String α
  | [] => Except.error "ValueError: max() arg is an empty sequence"
  | x :: xs => Except.ok (xs.foldl (fun acc y => if f acc < f y then y else acc) x)

/-- Python `min(xs, key=f)`: raises `ValueError` on an empty sequence,
otherwise returns the first element of minimal key. -/
def pyMinBy (f : α → Int) : List α → Except String α
  | [] => Except.error "ValueError: min() arg is an empty sequence"
  | x :: xs => Except.ok (xs.foldl (fun acc y => if f y < f acc then y else acc) x)

/-- The `VALID_REGIONS` constant of `uk_bank_holidays.py`. -/
def VALID_REGIONS : List String := ["england-and-wales", "scotland", "northern-ireland"]

/-- The summary block of `compare_regions_by_year`. -/
structure ComparisonSummary where
  totalUniqueDates : Int
  commonHolidays : Int
  mostHolidays : String
  fewestHolidays : String

/-- Tool `compare_regions_by_year`, cut at the boundary where it consumes
the per-region `get_bank_holidays_by_year` results: year validation
returns an error envelope (`Sum.inl`); regions whose fetch did not
succeed are left out of `comparison["regions"]`; the summary computes
`most_holidays`/`fewest_holidays` with Python `max`/`min` over the
included regions.  An `Except.error` is a Python exception unwinding to
the caller. -/
def compareRegionsByYear (year : Int) (byYear : String → ByYearResult) :
    Except String (Sum Result ComparisonSummary) :=
  if year < 2019 ∨ 2030 < year then
    Except.ok (Sum.inl
      { status := "error",
        message := some "Year must be between 2019 and 2030" })
  else
    let regions : List (String × List String) :=
      VALID_REGIONS.filterMap fun r =>
        if (byYear r).status = "success" then some (r, (byYear r).dates) else Option.none
    let counts : List (String × Int) :=
      VALID_REGIONS.filterMap fun r =>
        if (byYear r).status = "success" then some (r, (byYear r).count) else Option.none
    match pyMaxBy (fun rc => rc.2) counts, pyMinBy (fun rc => rc.2) counts with
    | Except.ok most, Except.ok fewest =>
        Except.ok (Sum.inr ⟨totalUniqueDates regions, commonHolidays regions,
          most.1, fewest.1⟩)
    | Except.error e, _ => Except.error e
    | _, Except.error e => Except.error e

/-- The per-region result when every upstream fetch fails (for example
when the `requests` library is unavailable): `get_bank_holidays_by_year`
returns the fetch layer's error envelope for each region. -/
def allRegionsFailed : String → ByYearResult := fun _ => ⟨"error", [], 0⟩

/-- The holiday-cluster scan at the end of `bank_holiday_business_impact`:
walk the parsed dates of `holidays_in_range` in list (fetch) order and,
on the first adjacent pair whose signed difference in days is at most 7,
append the advisory note and break.  Dates are day numbers, so `Int`
subtraction is `(d2 - d1).days`. -/
def clusterNotes : List Int → List String
  | d1 :: d2 :: rest =>
      if d2 - d1 ≤ 7 then
        ["Holiday cluster detected - plan for extended reduced productivity period"]
      else clusterNotes (d2 :: rest)
  | _ => []

/-- Some adjacent pair of the list has signed difference at most `k`
(what the source's loop actually tests, without the break). -/
def adjacentPairLE (k : Int) : List Int → Bool
  | d1 :: d2 :: rest => decide (d2 - d1 ≤ k) || adjacentPairLE k (d2 :: rest)
  | _ => false

/-- Some two holidays of the list lie at most `k` days apart — the
spec's reading of a "holiday cluster". -/
def existsPairWithin (k : Nat) : List Int → Bool
  | [] => false
  | d :: rest => rest.any (fun e => (e - d).natAbs ≤ k) || existsPairWithin k rest

/-- The cache-write discipline of one read-through fetch that started
from world `w` and missed the cache: an error outcome leaves every cache
file untouched, a success outcome overwrites exactly the operation's own
key, and at most one outbound request is issued (no retry). -/
def writeIffSuccess (key : String) (w : World) (p : Result × World) : Prop :=
  (p.1.status ≠ "success" → p.2.cache = w.cache)
  ∧ (p.1.status = "success" →
      p.2.cache key = some ⟨p.2.now, some p.1⟩ ∧ ∀ k, k ≠ key → p.2.cache k = w.cache k)
  ∧ p.2.httpCalls ≤ w.httpCalls + 1

/-- A world with an empty cache, clock and throttle at zero. -/
def emptyWorld : World := ⟨0, 0, fun _ => Option.none, 0⟩

/-- A successful upstream response with an empty JSON list body. -/
def okOutcome : HttpOutcome := .response 200 (.plist []) ""

/-! ## Theorems -/

theorem lookupKey_perm (k : String) {l1 l2 : List (String × PyVal)} (h : l1.Perm l2) :
    (l1.map Prod.fst).Nodup → lookupKey k l1 = lookupKey k l2 := by
  induction h with
  | nil => intro _; rfl
  | cons x h ih =>
      intro hnd
      obtain ⟨k2, v⟩ := x
      simp only [List.map_cons, List.nodup_cons] at hnd
      simp only [lookupKey]
      by_cases hk : k = k2
      · simp [hk]
      · simp only [if_neg hk]
        exact ih hnd.2
  | swap x y l =>
      intro hnd
      obtain ⟨ka, va⟩ := x
      obtain ⟨kb, vb⟩ := y
      simp only [List.map_cons, List.nodup_cons, List.mem_cons] at hnd
      have hne : kb ≠ ka := fun he => hnd.1 (Or.inl he)
      have hne2 : ka ≠ kb := fun he => hne he.symm
      by_cases h1 : k = kb
      · have h2 : ¬ k = ka := fun h2 => hne (h1.symm.trans h2)
        simp [lookupKey, h1, h2, hne]
      · by_cases h2 : k = ka <;> simp [lookupKey, h1, h2, hne2]
  | trans h1 h2 ih1 ih2 =>
      intro hnd
      exact (ih1 hnd).trans (ih2 (((h1.map Prod.fst).nodup_iff).mp hnd))

theorem sortedKeys_eq {l1 l2 : List String} (h : l1.Perm l2) :
    List.insertionSort (· ≤ ·) l1 = List.insertionSort (· ≤ ·) l2 :=
  List.eq_of_perm_of_sorted
    ((List.perm_insertionSort _ l1).trans (h.trans (List.perm_insertionSort _ l2).symm))
    (List.sorted_insertionSort _ l1) (List.sorted_insertionSort _ l2)

/-- C2: for every operation name and any two parameter maps holding the
same key-value pairs in any insertion order, `_get_cache_key` produces
the identical key; and a non-primitive parameter value is discarded
before serialization, so it never affects the key. -/
theorem police_cache_key_deterministic (md5 : String → String) (op : String)
    (p1 p2 : List (String × PyVal)) (hperm : p1.Perm p2)
    (hnd : (p1.map Prod.fst).Nodup) :
    policeGetCacheKey md5 op p1 = policeGetCacheKey md5 op p2 ∧
    ∀ (k : String) (v : PyVal) (q : List (String × PyVal)), v.isPrimitive = false →
      policeGetCacheKey md5 op ((k, v) :: q) = policeGetCacheKey md5 op q := by
  constructor
  · have hpf : (p1.filter fun kv => kv.2.isPrimitive).Perm
        (p2.filter fun kv => kv.2.isPrimitive) := hperm.filter _
    have hndf : ((p1.filter fun kv => kv.2.isPrimitive).map Prod.fst).Nodup :=
      List.Nodup.sublist ((List.filter_sublist p1).map Prod.fst) hnd
    have hks : List.insertionSort (· ≤ ·) ((p1.filter fun kv => kv.2.isPrimitive).map Prod.fst)
        = List.insertionSort (· ≤ ·) ((p2.filter fun kv => kv.2.isPrimitive).map Prod.fst) :=
      sortedKeys_eq (hpf.map Prod.fst)
    have hlk : ∀ k, lookupKey k (p1.filter fun kv => kv.2.isPrimitive)
        = lookupKey k (p2.filter fun kv => kv.2.isPrimitive) :=
      fun k => lookupKey_perm k hpf hndf
    unfold policeGetCacheKey policeCacheStr dumpsSorted
    rw [hks]
    simp only [hlk]
  · intro k v q hv
    simp [policeGetCacheKey, policeCacheStr, List.filter_cons, hv]

theorem police_cache_key_deterministic_witness :
    [("b", PyVal.pint 2), ("a", PyVal.pstr "x")].Perm
      [("a", PyVal.pstr "x"), ("b", PyVal.pint 2)]
    ∧ ([("b", PyVal.pint 2), ("a", PyVal.pstr "x")].map Prod.fst).Nodup
    ∧ (policeGetCacheKey id "op" [("b", PyVal.pint 2), ("a", PyVal.pstr "x")]
        = policeGetCacheKey id "op" [("a", PyVal.pstr "x"), ("b", PyVal.pint 2)]
      ∧ ∀ (k : String) (v : PyVal) (q : List (String × PyVal)), v.isPrimitive = false →
          policeGetCacheKey id "op" ((k, v) :: q) = policeGetCacheKey id "op" q) :=
  ⟨List.Perm.swap _ _ _, by simp,
    police_cache_key_deterministic id "op" _ _ (List.Perm.swap _ _ _) (by simp)⟩

/-- C3: `_get_from_cache` returns a stored payload exactly when the file
exists, its age `now - mtime` is strictly below `max_age`, and its
content parses; an expired entry — even one whose file still exists —
and a corrupt or unreadable one yield the same `None` as a true miss. -/
theorem cache_read_hit_iff (w : World) (key : String) (maxAge : ℚ) (p : Result) :
    (readCache w key maxAge = some p ↔
      ∃ f, w.cache key = some f ∧ w.now - f.mtime < maxAge ∧ f.parsed = some p)
    ∧ (∀ f, w.cache key = some f → maxAge ≤ w.now - f.mtime →
        readCache w key maxAge = Option.none) := by
  constructor
  · unfold readCache
    cases h : w.cache key with
    | none => simp
    | some f =>
        by_cases hage : w.now - f.mtime < maxAge
        · simp [hage]
        · simp [hage, not_lt.mp hage]
  · intro f hf hage
    unfold readCache
    rw [hf]
    simp [not_lt.mpr hage]

theorem writeIffSuccess_branch (key : String) (w w2 : World) (result : Result)
    (hc : w2.cache = w.cache) (hn : w2.httpCalls ≤ w.httpCalls + 1) :
    writeIffSuccess key w
      (if result.status = "success" ∧ (true : Bool) = true then
        (result, writeCache w2 key result) else (result, w2)) := by
  by_cases hs : result.status = "success"
  · rw [if_pos ⟨hs, rfl⟩]
    refine ⟨fun h => absurd hs h, fun _ => ⟨?_, ?_⟩, ?_⟩
    · simp [writeCache]
    · intro k hk
      simp only [writeCache, if_neg hk]
      rw [hc]
    · simpa [writeCache] using hn
  · rw [if_neg (fun h => hs h.1)]
    exact ⟨fun _ => hc, fun h => absurd h hs, hn⟩

/-- C4: on a cache miss with caching enabled, both read-through pipelines
write the fetched result back exactly when its status is success; an
error result of any kind leaves every cache file unchanged, and at most
one outbound request is issued — there is no retry. -/
theorem fetch_writes_iff_success (requestsAvailable : Bool) (maxAge : ℚ)
    (w : World) (up : HttpOutcome)
    (hp : readCache w policeForcesKey maxAge = Option.none)
    (hb : readCache w bankAllDataKey maxAge = Option.none) :
    writeIffSuccess policeForcesKey w
      (getPoliceForces requestsAvailable true maxAge w up)
    ∧ writeIffSuccess bankAllDataKey w
      (fetchBankHolidaysData requestsAvailable true maxAge w up) := by
  constructor
  · unfold getPoliceForces
    rw [if_pos rfl, hp]
    rcases hmk : makeRequest requestsAvailable w up with ⟨result, w2⟩
    have hfacts : w2.cache = w.cache ∧ w2.httpCalls ≤ w.httpCalls + 1 := by
      cases requestsAvailable with
      | false =>
          simp only [makeRequest, Bool.false_eq_true, if_neg, Prod.mk.injEq,
            reduceIte] at hmk
          rw [← hmk.2]
          exact ⟨rfl, Nat.le_succ _⟩
      | true =>
          simp only [makeRequest, if_pos, reduceIte, Prod.mk.injEq] at hmk
          rw [← hmk.2]
          exact ⟨rfl, le_refl _⟩
    exact writeIffSuccess_branch policeForcesKey w w2 result hfacts.1 hfacts.2
  · unfold fetchBankHolidaysData
    cases requestsAvailable with
    | false =>
        rw [if_neg (by simp)]
        have hne2 : ¬ ("error" = "success") := by decide
        exact ⟨fun _ => rfl, fun h => absurd h hne2, Nat.le_succ _⟩
    | true =>
        rw [if_pos rfl, if_pos rfl, hb]
        exact writeIffSuccess_branch bankAllDataKey w
          ⟨rateLimitCall 0.5 w.lastCallAt w.now, rateLimitCall 0.5 w.lastCallAt w.now,
            w.cache, w.httpCalls + 1⟩
          (classifyBank (rateLimitCall 0.5 w.lastCallAt w.now) up) rfl (le_refl _)

theorem fetch_writes_iff_success_witness :
    readCache emptyWorld policeForcesKey 86400 = Option.none
    ∧ readCache emptyWorld bankAllDataKey 86400 = Option.none
    ∧ (writeIffSuccess policeForcesKey emptyWorld
        (getPoliceForces true true 86400 emptyWorld okOutcome)
      ∧ writeIffSuccess bankAllDataKey emptyWorld
        (fetchBankHolidaysData true true 86400 emptyWorld okOutcome)) :=
  ⟨rfl, rfl, fetch_writes_iff_success true 86400 emptyWorld okOutcome rfl rfl⟩

theorem rateLimitCall_lb (r lastCall d : ℚ) (hr : 0 < r) (hd : 0 ≤ d) :
    lastCall + 1 / r ≤ rateLimitCall r lastCall (lastCall + d) := by
  unfold rateLimitCall
  split
  · linarith
  · rename_i hwait
    push_neg at hwait
    linarith

theorem getLastD_of_ne_nil {α : Type _} {l : List α} (h : l ≠ []) (a b : α) :
    l.getLastD a = l.getLastD b := by
  cases l with
  | nil => exact absurd rfl h
  | cons x xs => rfl

theorem getLastD_cons' {α : Type _} (x d : α) (l : List α) :
    (x :: l).getLastD d = l.getLastD x := by
  cases l with
  | nil => rfl
  | cons y ys => rfl

theorem headD_cons' {α : Type _} (x d : α) (l : List α) :
    (x :: l).headD d = x := rfl

theorem throttleRun_cons (r last d : ℚ) (ds : List ℚ) :
    throttleRun r last (d :: ds)
      = rateLimitCall r last (last + d)
          :: throttleRun r (rateLimitCall r last (last + d)) ds := rfl

theorem throttleRun_getLast_lb (r : ℚ) (hr : 0 < r) :
    ∀ (ds : List ℚ) (last : ℚ), ds ≠ [] → (∀ d ∈ ds, 0 ≤ d) →
      last + (ds.length : ℚ) / r ≤ (throttleRun r last ds).getLastD 0 := by
  intro ds
  induction ds with
  | nil => intro last h _; exact absurd rfl h
  | cons d ds ih =>
      intro last _ hds
      have hd : 0 ≤ d := hds d (List.mem_cons_self d ds)
      have hc := rateLimitCall_lb r last d hr hd
      cases ds with
      | nil =>
          rw [throttleRun_cons r last d []]
          simpa using hc
      | cons d2 ds2 =>
          have hds2 : ∀ x ∈ d2 :: ds2, 0 ≤ x := fun x hx => hds x (List.mem_cons_of_mem _ hx)
          have ih2 := ih (rateLimitCall r last (last + d)) (List.cons_ne_nil _ _) hds2
          have hrr : throttleRun r (rateLimitCall r last (last + d)) (d2 :: ds2) ≠ [] := by
            simp [throttleRun]
          have hr0 : r ≠ 0 := ne_of_gt hr
          have hlen : last + (((d :: d2 :: ds2).length : ℚ)) / r
              = (last + 1 / r) + (((d2 :: ds2).length : ℚ)) / r := by
            push_cast
            field_simp
            ring
          calc last + (((d :: d2 :: ds2).length : ℚ)) / r
              = (last + 1 / r) + (((d2 :: ds2).length : ℚ)) / r := hlen
            _ ≤ rateLimitCall r last (last + d) + (((d2 :: ds2).length : ℚ)) / r := by
                linarith
            _ ≤ (throttleRun r (rateLimitCall r last (last + d)) (d2 :: ds2)).getLastD 0 := ih2
            _ = (throttleRun r last (d :: d2 :: ds2)).getLastD 0 := by
                rw [throttleRun_cons r last d (d2 :: ds2), getLastD_cons',
                  getLastD_of_ne_nil hrr (rateLimitCall r last (last + d)) 0]

/-- C5: for rate `r > 0`, N sequential `_rate_limit(r)` calls — each
starting no earlier than the previous one finished — complete with at
least `(N-1)/r` seconds between the first and the last completion: each
call sleeps out the remainder of the minimum interval `1/r` and records
its completion as the shared last-call timestamp. -/
theorem throttle_lower_bound (r last : ℚ) (ds : List ℚ) (hr : 0 < r)
    (hds : ∀ d ∈ ds, 0 ≤ d) (hne : ds ≠ []) :
    (throttleRun r last ds).headD 0 + ((ds.length : ℚ) - 1) / r
      ≤ (throttleRun r last ds).getLastD 0 := by
  cases ds with
  | nil => exact absurd rfl hne
  | cons d ds2 =>
      cases ds2 with
      | nil => simp [throttleRun]
      | cons d2 ds3 =>
          have hds2 : ∀ x ∈ d2 :: ds3, 0 ≤ x := fun x hx => hds x (List.mem_cons_of_mem _ hx)
          have h1 := throttleRun_getLast_lb r hr (d2 :: ds3)
            (rateLimitCall r last (last + d)) (List.cons_ne_nil _ _) hds2
          have hrr : throttleRun r (rateLimitCall r last (last + d)) (d2 :: ds3) ≠ [] := by
            rw [throttleRun_cons]
            exact List.cons_ne_nil _ _
          rw [throttleRun_cons r last d (d2 :: ds3), headD_cons', getLastD_cons',
            getLastD_of_ne_nil hrr (rateLimitCall r last (last + d)) 0]
          have hlen : (((d :: d2 :: ds3).length : ℚ) - 1) = (((d2 :: ds3).length : ℚ)) := by
            push_cast [List.length_cons]
            ring
          rw [hlen]
          exact h1

theorem throttle_lower_bound_witness :
    (0 : ℚ) < 1 ∧ (∀ d ∈ ([0, 0, 0] : List ℚ), 0 ≤ d) ∧ ([0, 0, 0] : List ℚ) ≠ []
    ∧ (throttleRun 1 0 [0, 0, 0]).headD 0 + ((([0, 0, 0] : List ℚ).length : ℚ) - 1) / 1
        ≤ (throttleRun 1 0 [0, 0, 0]).getLastD 0 :=
  ⟨by norm_num, by decide, by simp,
    throttle_lower_bound 1 0 [0, 0, 0] (by norm_num) (by decide) (by simp)⟩

/-- C6: in `compare_regions_by_year`, the sum over all regions of the
unique-holiday counts plus the reported `common_holidays` equals
`total_unique_dates`, as an algebraic identity over any dataset
(`common_holidays` is computed as exactly that difference, in Python int
arithmetic). -/
theorem regional_identity (regions : List (String × List String)) :
    sumUniqueCounts regions + commonHolidays regions = totalUniqueDates regions := by
  unfold commonHolidays
  ring

/-- C7 (code bug): when every region's fetch fails,
`compare_regions_by_year` does not return a structured error result —
its summary applies Python `max` to the then-empty region map and raises
`ValueError`, which unwinds to the caller. -/
theorem compare_raises_when_all_fetches_fail :
    compareRegionsByYear 2024 allRegionsFailed
      = Except.error "ValueError: max() arg is an empty sequence" := rfl

theorem clusterNotes_eq_nil_gaps : ∀ (d : Int) (l : List Int),
    clusterNotes (d :: l) = [] → ∀ e ∈ l, d + 8 ≤ e := by
  intro d l
  induction l generalizing d with
  | nil =>
      intro _ e he
      simp at he
  | cons d2 rest ih =>
      intro hcl e he
      simp only [clusterNotes] at hcl
      by_cases hgap : d2 - d ≤ 7
      · rw [if_pos hgap] at hcl
        exact absurd hcl (by simp)
      · rw [if_neg hgap] at hcl
        rcases List.mem_cons.mp he with he2 | he3
        · subst he2
          omega
        · have := ih d2 hcl e he3
          omega

theorem clusterNotes_nil_no_pair : ∀ (l : List Int), clusterNotes l = [] →
    existsPairWithin 7 l = false := by
  intro l
  induction l with
  | nil => intro _; rfl
  | cons d rest ih =>
      intro hcl
      have hgaps := clusterNotes_eq_nil_gaps d rest hcl
      have hrest : clusterNotes rest = [] := by
        cases rest with
        | nil => rfl
        | cons d2 r2 =>
            simp only [clusterNotes] at hcl
            by_cases hgap : d2 - d ≤ 7
            · rw [if_pos hgap] at hcl
              exact absurd hcl (by simp)
            · rw [if_neg hgap] at hcl
              exact hcl
      simp only [existsPairWithin, Bool.or_eq_false_iff]
      constructor
      · rw [List.any_eq_false]
        intro e he
        have h8 := hgaps e he
        simp only [decide_eq_true_eq]
        omega
      · exact ih hrest

/-- C8 (counterexample): with holiday day numbers in fetch order
`[359, 0]` — 2024-12-25 followed by 2024-01-01 of the same year, 359
days apart — the scan emits the cluster note even though no two
holidays of the range lie within 7 days of each other. -/
theorem cluster_note_not_pairwise :
    clusterNotes [359, 0]
      = ["Holiday cluster detected - plan for extended reduced productivity period"]
    ∧ existsPairWithin 7 [359, 0] = false := ⟨rfl, rfl⟩

/-- C8 (amended): the advisory note is emitted at most once, and it is
emitted exactly when some adjacent pair of the list, in fetch order, has
a signed day difference of at most 7; in particular it is still emitted
whenever some two holidays really are at most 7 days apart, but it can
also fire when none are. -/
theorem cluster_note_characterization (ds : List Int) :
    (clusterNotes ds).length ≤ 1
    ∧ (clusterNotes ds ≠ [] ↔ adjacentPairLE 7 ds = true)
    ∧ (existsPairWithin 7 ds = true → clusterNotes ds ≠ []) := by
  refine ⟨?_, ?_, ?_⟩
  · induction ds with
    | nil => simp [clusterNotes]
    | cons d rest ih =>
        cases rest with
        | nil => simp [clusterNotes]
        | cons d2 r2 =>
            simp only [clusterNotes]
            split
            · simp
            · exact ih
  · induction ds with
    | nil => simp [clusterNotes, adjacentPairLE]
    | cons d rest ih =>
        cases rest with
        | nil => simp [clusterNotes, adjacentPairLE]
        | cons d2 r2 =>
            simp only [clusterNotes, adjacentPairLE]
            by_cases hgap : d2 - d ≤ 7
            · simp [hgap]
            · rw [if_neg hgap]
              rw [ih]
              simp [hgap]
  · intro hex hcl
    rw [clusterNotes_nil_no_pair ds hcl] at hex
    exact absurd hex (by simp)

/-- C9 (counterexample): `get_stop_search_location` at latitude 200
returns the bare message "Invalid coordinates", which does not mention
the valid latitude range (the string does not even contain "90"). -/
theorem stop_search_lat200_message :
    (getStopSearchLocation 200 0 Option.none true 1800 true emptyWorld okOutcome).1.message
      = some "Invalid coordinates"
    ∧ ¬ ("90".data <:+: "Invalid coordinates".data) := by
  constructor
  · rfl
  · decide

/-- C9 (amended): latitude 200 with any longitude is rejected by both
coordinate-taking operations before any I/O — no outbound request is
made, the throttle timestamp and the cache are untouched — with an error
envelope; `get_crimes_street_point`'s message spells out the valid
ranges, while `get_stop_search_location`'s is the bare
"Invalid coordinates". -/
theorem lat200_rejected_before_io (lng : ℚ) (date category : Option String)
    (useCache : Bool) (maxAge : ℚ) (requestsAvailable : Bool)
    (w : World) (up : HttpOutcome) :
    ((getCrimesStreetPoint 200 lng date category useCache maxAge requestsAvailable w up).1.status
        = "error"
      ∧ (getCrimesStreetPoint 200 lng date category useCache maxAge requestsAvailable w up).1.message
        = some latRangeMsg
      ∧ (getCrimesStreetPoint 200 lng date category useCache maxAge requestsAvailable w up).2 = w)
    ∧ ((getStopSearchLocation 200 lng date useCache maxAge requestsAvailable w up).1.status
        = "error"
      ∧ (getStopSearchLocation 200 lng date useCache maxAge requestsAvailable w up).1.message
        = some "Invalid coordinates"
      ∧ (getStopSearchLocation 200 lng date useCache maxAge requestsAvailable w up).2 = w)
    ∧ ("between -90 and 90".data <:+: latRangeMsg.data) := by
  have hval : validateCoordinates 200 lng = false := by
    have hnot : ¬ ((-90 : ℚ) ≤ 200 ∧ (200 : ℚ) ≤ 90 ∧ (-180 : ℚ) ≤ lng ∧ lng ≤ 180) := by
      intro h
      have := h.2.1
      norm_num at this
    simp [validateCoordinates, hnot]
  refine ⟨⟨?_, ?_, ?_⟩, ⟨?_, ?_, ?_⟩, ?_⟩
  · simp [getCrimesStreetPoint, hval]
  · simp [getCrimesStreetPoint, hval]
  · simp [getCrimesStreetPoint, hval]
  · simp [getStopSearchLocation, hval]
  · simp [getStopSearchLocation, hval]
  · simp [getStopSearchLocation, hval]
  · decide

/-- C1 (counterexample): in the bank-holidays module an upstream 404 is
not turned into an empty success — `_fetch_bank_holidays_data` classifies
every non-200 status, 404 included, through the generic branch as an
error result. -/
theorem bank_404_is_error :
    (fetchBankHolidaysData true false 86400 emptyWorld
        (.response 404 (.plist []) "not found")).1.status = "error"
    ∧ (fetchBankHolidaysData true false 86400 emptyWorld
        (.response 404 (.plist []) "not found")).1.message = some "API error: HTTP 404" := by
  constructor
  · rfl
  · decide

/-- C1 (amended): the police module's `_make_request` classifies an
upstream 404 as success with an empty data list and count 0 — never an
error — while the bank-holidays fetch classifies the same 404 as an
error result. -/
theorem http404_classification (body : PyVal) (text : String) (maxAge : ℚ)
    (w : World) (t : ℚ) :
    classifyPolice (.response 404 body text)
      = { status := "success", data := some (.plist []), count := some 0,
          message := some "No data found for the specified parameters" }
    ∧ (classifyBank t (.response 404 body text)).status = "error"
    ∧ (fetchBankHolidaysData true false maxAge w (.response 404 body text)).1.status = "error" :=
  ⟨rfl, rfl, rfl⟩

theorem fst_ite_pair {c : Prop} [Decidable c] (r : Result) (x y : World) :
    (if c then (r, x) else (r, y)).1 = r := by
  split <;> rfl

/-- C10: the bank-holidays module has a single cache entry: the one key
is derived from the fixed operation string "all_data", so no caller
parameter ever reaches it; a fetch touches no other key, and its outcome
depends on the cache state only through that shared entry. -/
theorem bank_cache_single_key (requestsAvailable useCache : Bool) (maxAge : ℚ)
    (w : World) (up : HttpOutcome) :
    bankAllDataKey = bankCacheStr "all_data"
    ∧ (∀ k, k ≠ bankAllDataKey →
        (fetchBankHolidaysData requestsAvailable useCache maxAge w up).2.cache k = w.cache k)
    ∧ (∀ now lc n c1 c2, c1 bankAllDataKey = c2 bankAllDataKey →
        (fetchBankHolidaysData requestsAvailable useCache maxAge ⟨now, lc, c1, n⟩ up).1 =
          (fetchBankHolidaysData requestsAvailable useCache maxAge ⟨now, lc, c2, n⟩ up).1) := by
  refine ⟨rfl, ?_, ?_⟩
  · intro k hk
    unfold fetchBankHolidaysData
    cases requestsAvailable with
    | false =>
        rw [if_neg (by simp)]
    | true =>
        rw [if_pos rfl]
        cases hrc : (if useCache = true then readCache w bankAllDataKey maxAge
            else Option.none) with
        | some cached => rfl
        | none =>
            by_cases hs : (classifyBank (rateLimitCall 0.5 w.lastCallAt w.now) up).status
                = "success" ∧ useCache = true
            · simp [hs, writeCache, hk]
            · simp [hs]
  · intro now lc n c1 c2 h
    have h2 : (⟨now, lc, c1, n⟩ : World).cache bankAllDataKey
        = (⟨now, lc, c2, n⟩ : World).cache bankAllDataKey := h
    have hrw : readCache ⟨now, lc, c1, n⟩ bankAllDataKey maxAge
        = readCache ⟨now, lc, c2, n⟩ bankAllDataKey maxAge := by
      unfold readCache
      rw [h2]
    cases requestsAvailable with
    | false => rfl
    | true =>
        unfold fetchBankHolidaysData
        rw [if_pos rfl, if_pos rfl, hrw]
        cases hval : (if useCache = true then readCache ⟨now, lc, c2, n⟩ bankAllDataKey maxAge
            else Option.none) with
        | some cached => rfl
        | none => simp only [fst_ite_pair]
